import Mathlib

/-!
Shallow embedding of the SBLD24 cheminformatics notebooks.

The notebooks glue RDKit / pandas / requests calls together.  The glue logic
(Lipinski filter, try/except around the O3A alignment loop, batch map,
sort-and-truncate ranking, PubChem response handling, undersampling loop) is
embedded directly from the notebook cells.  The external library calls
(RDKit descriptor/fingerprint functions, pandas sort, the HTTP layer) are
modelled from the specification where noted, since their code is not part of
this repository; they enter the embedding as explicit inputs or as
spec-modelled deterministic functions.
-/

namespace SBLD24

/-- A molecule as the notebooks observe it through RDKit.  The fields record
the outputs of the external RDKit calls made on the molecule:
`mw`, `n_hba`, `n_hbd`, `logp`, `tpsa` are the five `Descriptors.*` values
used by `calculate_ro5_properties`; `maccsMatched` lists which of the 166
predefined MACCS substructure patterns the molecule matches (modelled from
the spec: "key-based: presence/absence of ~166 predefined substructure
patterns"); `morganHashes` lists the hashes of the atom-centered circular
environments (modelled from the spec: "hash-based circular: enumerates
atom-centered neighborhoods up to a radius, hashes each into a bit position
modulo vector length"). -/
structure Molecule where
  mw : ℚ
  n_hba : ℕ
  n_hbd : ℕ
  logp : ℚ
  tpsa : ℚ
  maccsMatched : List ℕ
  morganHashes : List ℕ
deriving DecidableEq, Repr

/-- The pandas Series returned by `calculate_ro5_properties`:
`[molecular_weight, n_hba, n_hbd, logp, TPSA, ro5_fulfilled]`. -/
structure Ro5Properties where
  molecular_weight : ℚ
  n_hba : ℕ
  n_hbd : ℕ
  logp : ℚ
  TPSA : ℚ
  ro5_fulfilled : Bool
deriving DecidableEq, Repr

/-- The list `conditions` built inside `calculate_ro5_properties`:
`[molecular_weight <= 500, n_hba <= 10, n_hbd <= 5, logp <= 5, TPSA < 140]`. -/
def ro5_conditions (molecule : Molecule) : List Bool :=
  [decide (molecule.mw ≤ 500), decide (molecule.n_hba ≤ 10),
   decide (molecule.n_hbd ≤ 5), decide (molecule.logp ≤ 5),
   decide (molecule.tpsa < 140)]

/-- Embedding of `calculate_ro5_properties` (RDKit notebook):
computes the five descriptor values and sets
`ro5_fulfilled = sum(conditions) > 4`, where `sum` counts the `True`
entries of `conditions`. -/
def calculate_ro5_properties (molecule : Molecule) : Ro5Properties :=
  { molecular_weight := molecule.mw
    n_hba := molecule.n_hba
    n_hbd := molecule.n_hbd
    logp := molecule.logp
    TPSA := molecule.tpsa
    ro5_fulfilled := decide ((ro5_conditions molecule).count true > 4) }

/-- Number of `on` bits of a fingerprint bit vector. -/
def onBits (v : List Bool) : ℕ := v.count true

/-- Modelled from the spec: `DataStructs.TanimotoSimilarity` is external
RDKit code; the spec defines it as "intersection-count / union-count of two
equal-length bit vectors".  RDKit returns `0.0` when the union is empty
(both vectors all-zero), which coincides with the `q / 0 = 0` convention
used here. -/
def TanimotoSimilarity (a b : List Bool) : ℚ :=
  (onBits (List.zipWith and a b) : ℚ) / (onBits (List.zipWith or a b) : ℚ)

/-- `DataStructs.FingerprintSimilarity` defaults to the Tanimoto metric. -/
def FingerprintSimilarity (a b : List Bool) : ℚ := TanimotoSimilarity a b

/-- Modelled from the spec: `MACCSkeys.GenMACCSKeys` is external RDKit code;
the spec defines the key-based fingerprint as "presence/absence of ~166
predefined substructure patterns", a "fixed-length bit vector (166 bits for
key-based)".  Bit `i` is set exactly when the molecule matches pattern `i`. -/
def GenMACCSKeys (molecule : Molecule) : List Bool :=
  (List.range 166).map (fun i => molecule.maccsMatched.contains i)

/-- Modelled from the spec: `AllChem.GetMorganFingerprintAsBitVect` is
external RDKit code; the spec defines the hash-based circular fingerprint as
hashing each atom-centered environment "into a bit position modulo vector
length (collisions are accepted, not resolved)".  The `radius` argument
selects which environments are enumerated; in this model the molecule
already carries their hashes (`morganHashes`), so `radius` does not affect
the output shape. -/
def GetMorganFingerprintAsBitVect (molecule : Molecule) (radius : ℕ)
    (nBits : ℕ) : List Bool :=
  (List.range nBits).map
    (fun i => molecule.morganHashes.any (fun h => h % nBits == i))

/-- Well-formedness check for the line-notation model: round and square
brackets must be balanced and never close below zero, and the string must be
nonempty.  Part of the spec-modelled `MolFromSmiles` below. -/
def smilesBalanced : List Char → ℕ → ℕ → Bool
  | [], p, b => p == 0 && b == 0
  | c :: cs, p, b =>
    if c = '(' then smilesBalanced cs (p + 1) b
    else if c = ')' then decide (0 < p) && smilesBalanced cs (p - 1) b
    else if c = '[' then smilesBalanced cs p (b + 1)
    else if c = ']' then decide (0 < b) && smilesBalanced cs p (b - 1)
    else smilesBalanced cs p b

/-- Whether a line-notation string is well formed in the model: nonempty and
bracket-balanced. -/
def smilesWellFormed (s : String) : Bool :=
  (!(s == "")) && smilesBalanced s.toList 0 0

/-- Modelled from the spec: `Chem.MolFromSmiles` is external RDKit code; the
spec says the Loader "parses a line notation string into a Molecule; fails
(returns an error/empty result) on malformed input" with "no propagated
diagnostic".  Malformed input is modelled by `smilesWellFormed`; a parsed
molecule is built deterministically from the string (the claims only depend
on it being non-null and determined by the input). -/
def MolFromSmiles (s : String) : Option Molecule :=
  if smilesWellFormed s then
    some { mw := 0, n_hba := 0, n_hbd := 0, logp := 0, tpsa := 0,
           maccsMatched := [], morganHashes := s.toList.map Char.toNat }
  else none

/-!
### Shape-based screening: `embed_optimize_align_molecule`

The function (RDKit notebook, def cell) embeds conformers, optimizes them,
and loops over the conformer ids:

  for cid in range(mol.GetNumConformers()):
      try:
        O3A = AllChem.GetO3A(mol, query, prbCid=cid)
      except ValueError:
        return None
      alignment_score = O3A.Align()
      scores.append(alignment_score)
  return np.min(scores)

The external `GetO3A`/`Align` calls are inputs of the embedding: each
conformer contributes an outcome, `none` when `GetO3A` raises `ValueError`
and `some s` when it succeeds and `Align()` returns score `s`.
-/

/-- The result of one call of `embed_optimize_align_molecule`: either a
returned value (`result none` is the Python `return None`) or an uncaught
exception (`np.min([])` raises `ValueError` when no conformer was
generated, since the `try` only wraps `GetO3A`). -/
inductive AlignResult where
  | result : Option ℚ → AlignResult
  | raised : AlignResult
deriving DecidableEq, Repr

/-- The `for cid in ...` loop: walks the per-conformer outcomes in order,
returning `none` at the first caught `ValueError` and otherwise the
accumulated `scores` list. -/
def alignLoop : List (Option ℚ) → List ℚ → Option (List ℚ)
  | [], scores => some scores
  | none :: _, _ => none
  | some s :: rest, scores => alignLoop rest (scores ++ [s])

/-- `np.min` of a nonempty list. -/
def npMin (x : ℚ) (xs : List ℚ) : ℚ := xs.foldl min x

/-- Embedding of `embed_optimize_align_molecule`, as a function of the
per-conformer `GetO3A`/`Align` outcomes. -/
def embed_optimize_align_molecule (confOutcomes : List (Option ℚ)) :
    AlignResult :=
  match alignLoop confOutcomes [] with
  | none => .result none
  | some [] => .raised
  | some (s :: rest) => .result (some (npMin s rest))

/-- The batch pass
`dataset['rdkitmol'].progress_apply(lambda x: embed_optimize_align_molecule (x, query_h, ...))`:
a record-by-record map over the dataset, each record contributing its
per-conformer outcomes. -/
def shapeScreenBatch (ds : List (List (Option ℚ))) : List AlignResult :=
  ds.map embed_optimize_align_molecule

/-!
### Ranker: sort by score and truncate to the top 10

`dataset.sort_values(by='MACCS_ts', ascending=False)[:10]` and
`dataset.sort_values(by='ShapeSimilarity', ascending=True)[:10]`.
`pandas.sort_values` is external; it is modelled from the spec ("Stable
sort of the candidate corpus by score") by the stable `List.mergeSort`.
-/

/-- One row of the candidate corpus as the ranker sees it: an identifier and
the score column being sorted on. -/
structure ScoredRecord where
  chembl_id : ℕ
  score : ℚ
deriving DecidableEq, Repr

/-- `sort_values(by=score, ascending=False)[:10]`: stable sort descending by
score, then truncate to the first 10 rows. -/
def rankDescendingTop10 (ds : List ScoredRecord) : List ScoredRecord :=
  (ds.mergeSort (fun a b => b.score ≤ a.score)).take 10

/-- `sort_values(by=score, ascending=True)[:10]`: stable sort ascending by
score, then truncate to the first 10 rows. -/
def rankAscendingTop10 (ds : List ScoredRecord) : List ScoredRecord :=
  (ds.mergeSort (fun a b => a.score ≤ b.score)).take 10

/-!
### PubChem lookups (Practice2-PubChem notebook)

  r = requests.get(url); response = r.json()
  if "IdentifierList" in response:
      cid = response["IdentifierList"]["CID"][0]
  else:
      raise ValueError(f"Could not find matches for compound: ...")

and the analogous `PropertyTable` / `MolecularWeight` cell.  The HTTP layer
is external: the embedding takes the decoded response as input, `none` when
the expected key is absent and `some xs` when it is present with list `xs`.
A single `requests.get` is issued, so each lookup is a function of exactly
one response.
-/

/-- A Python exception raised by a lookup cell: the explicit `ValueError`,
or the `IndexError` from indexing `[0]` into an empty list. -/
inductive PyError where
  | valueError : String → PyError
  | indexError : PyError
deriving DecidableEq, Repr

/-- Embedding of the CID-by-name lookup cell.  `response` is `some cids`
when the JSON has the `IdentifierList` key (with CID list `cids`), `none`
otherwise. -/
def cid_by_name_lookup (name : String) (response : Option (List ℕ)) :
    Except PyError ℕ :=
  match response with
  | some cids =>
    match cids with
    | [] => .error .indexError
    | c :: _ => .ok c
  | none => .error (.valueError ("Could not find matches for compound: " ++ name))

/-- Embedding of the MolecularWeight lookup cell.  `response` is
`some props` when the JSON has the `PropertyTable` key (with `Properties`
list `props`, each reduced to its `MolecularWeight` field), `none`
otherwise. -/
def mol_weight_lookup (cid : String) (response : Option (List ℚ)) :
    Except PyError ℚ :=
  match response with
  | some props =>
    match props with
    | [] => .error .indexError
    | w :: _ => .ok w
  | none => .error (.valueError ("Could not find matches for PubChem CID: " ++ cid))

/-!
### Undersampling loop (QSAR notebook)

  most_populated_class = severity_counts.idxmax()
  desired_size = 40
  balanced_df = pd.DataFrame()
  for severity_class, count in severity_counts.items():
      if severity_class == most_populated_class:
          undersampled_indices = df[df['Severity Class'] == c].sample(n=40, ...).index
      else:
          undersampled_indices = df[df['Severity Class'] == c].index
      balanced_df = pd.concat([balanced_df, df.loc[undersampled_indices]])

`pandas.sample` is external and pseudo-random (seeded); it enters the
embedding as a function `sample40`, constrained in the theorems to return
40 rows drawn from its input, which is what `sample(n=40)` guarantees when
the input has at least 40 rows.
-/

/-- One row of the toxicity dataframe as the undersampling loop sees it: a
row identity and its `Severity Class` value. -/
structure ToxRow where
  idx : ℕ
  severityClass : ℕ
deriving DecidableEq, Repr

/-- `df[df['Severity Class'] == c]`: the rows of class `c`, in dataframe
order. -/
def classRows (df : List ToxRow) (c : ℕ) : List ToxRow :=
  df.filter (fun r => r.severityClass == c)

/-- Embedding of the undersampling loop.  `classes` is the index of
`severity_counts` (the distinct severity classes); `most` is
`most_populated_class`; `sample40` models `pandas.sample(n=40, random_state=42)`.
The loop concatenates, per class, either the sampled rows (most populated
class) or all rows of the class. -/
def balanced_df (df : List ToxRow) (classes : List ℕ) (most : ℕ)
    (sample40 : List ToxRow → List ToxRow) : List ToxRow :=
  (classes.map (fun c =>
    if c = most then sample40 (classRows df c) else classRows df c)).flatten

/-! ## Helper lemmas for the Tanimoto comparator -/

theorem zipWith_and_comm (a b : List Bool) :
    List.zipWith and a b = List.zipWith and b a := by
  induction a generalizing b with
  | nil => cases b <;> rfl
  | cons x xs ih =>
    cases b with
    | nil => rfl
    | cons y ys => simp [List.zipWith, Bool.and_comm, ih]

theorem zipWith_or_comm (a b : List Bool) :
    List.zipWith or a b = List.zipWith or b a := by
  induction a generalizing b with
  | nil => cases b <;> rfl
  | cons x xs ih =>
    cases b with
    | nil => rfl
    | cons y ys => simp [List.zipWith, Bool.or_comm, ih]

theorem count_and_le_count_or :
    ∀ a b : List Bool,
      onBits (List.zipWith and a b) ≤ onBits (List.zipWith or a b)
  | [], _ => by simp [onBits]
  | _ :: _, [] => by simp [onBits]
  | x :: xs, y :: ys => by
    have ih := count_and_le_count_or xs ys
    simp only [onBits] at ih ⊢
    cases x <;> cases y <;> simp <;> omega

theorem tanimoto_counts_eq_iff :
    ∀ a b : List Bool, a.length = b.length →
      (onBits (List.zipWith and a b) = onBits (List.zipWith or a b) ↔ a = b)
  | [], [], _ => by simp
  | [], _ :: _, h => by simp at h
  | _ :: _, [], h => by simp at h
  | x :: xs, y :: ys, h => by
    have hlen : xs.length = ys.length := by simpa using h
    have htail := count_and_le_count_or xs ys
    have hiff := tanimoto_counts_eq_iff xs ys hlen
    simp only [onBits] at htail hiff ⊢
    cases x <;> cases y
    · simpa using hiff
    · simp
      omega
    · simp
      omega
    · simpa using hiff

/-- C2 counterexample: for the equal all-zero bit vectors
`A = B = [false]`, the Tanimoto similarity is `0`, not `1`, so
"equals 1.0 if and only if A = B" fails as stated over all equal-length
bit-vector pairs. -/
theorem tanimoto_all_zero_counterexample :
    (([false] : List Bool) = [false]) ∧
    TanimotoSimilarity [false] [false] = 0 ∧
    ¬ (TanimotoSimilarity [false] [false] = 1 ↔
        ([false] : List Bool) = [false]) := by
  have h0 : TanimotoSimilarity [false] [false] = 0 := by
    simp [TanimotoSimilarity, onBits]
  refine ⟨rfl, h0, fun hiff => ?_⟩
  have h1 : TanimotoSimilarity [false] [false] = 1 := hiff.mpr rfl
  rw [h0] at h1
  exact absurd h1 (by norm_num)

/-- C2 (amended): for equal-length bit vectors, the Tanimoto similarity is
intersection-count / union-count, lies in the interval `[0, 1]`, is
symmetric, and — whenever the union is nonempty, i.e. the vectors are not
both all-zero — equals `1` iff the vectors are identical (for two all-zero
vectors it is `0`, the RDKit convention). -/
theorem tanimoto_similarity_properties (a b : List Bool)
    (h : a.length = b.length) :
    TanimotoSimilarity a b =
      (onBits (List.zipWith and a b) : ℚ) /
        (onBits (List.zipWith or a b) : ℚ) ∧
    0 ≤ TanimotoSimilarity a b ∧
    TanimotoSimilarity a b ≤ 1 ∧
    TanimotoSimilarity a b = TanimotoSimilarity b a ∧
    (onBits (List.zipWith or a b) ≠ 0 →
      (TanimotoSimilarity a b = 1 ↔ a = b)) := by
  refine ⟨rfl, ?_, ?_, ?_, ?_⟩
  · exact div_nonneg (Nat.cast_nonneg _) (Nat.cast_nonneg _)
  · rcases Nat.eq_zero_or_pos (onBits (List.zipWith or a b)) with hu | hu
    · have hc : onBits (List.zipWith and a b) = 0 := by
        have := count_and_le_count_or a b; omega
      simp [TanimotoSimilarity, hu, hc]
    · rw [TanimotoSimilarity, div_le_one (by exact_mod_cast hu)]
      exact_mod_cast count_and_le_count_or a b
  · rw [TanimotoSimilarity, TanimotoSimilarity, zipWith_and_comm,
      zipWith_or_comm]
  · intro hu
    rw [TanimotoSimilarity, div_eq_iff ?hzero, one_mul, Nat.cast_inj]
    case hzero => exact_mod_cast hu
    exact tanimoto_counts_eq_iff a b h

/-- Witness for C2's amended theorem at the concrete pair
`A = [true, false]`, `B = [true, true]`. -/
theorem tanimoto_similarity_properties_witness :
    ([true, false] : List Bool).length = ([true, true] : List Bool).length ∧
    (TanimotoSimilarity [true, false] [true, true] = 1 ↔
      ([true, false] : List Bool) = [true, true]) :=
  ⟨rfl,
    (tanimoto_similarity_properties [true, false] [true, true]
      rfl).2.2.2.2 (by decide)⟩

/-- C1: the hard filter requires all five rule-of-five conditions, not four
of five: at a molecule satisfying exactly 4 of the 5 conditions (molecular
weight 600 > 500, the other four satisfied), `calculate_ro5_properties`
returns `ro5_fulfilled = false`, because the code computes
`sum(conditions) > 4` while its own comment says "Return True if no more
than one ... conditions is violated". -/
theorem ro5_four_of_five_not_fulfilled :
    (ro5_conditions
        { mw := 600, n_hba := 2, n_hbd := 1, logp := 1, tpsa := 50,
          maccsMatched := [], morganHashes := [] }).count true = 4 ∧
    (calculate_ro5_properties
        { mw := 600, n_hba := 2, n_hbd := 1, logp := 1, tpsa := 50,
          maccsMatched := [], morganHashes := [] }).ro5_fulfilled = false := by
  decide

/-- C4: malformed line-notation input yields the null result `none` (no
exception, no diagnostic), and well-formed input yields a `Molecule`. -/
theorem molFromSmiles_error_model (s : String) :
    (smilesWellFormed s = false → MolFromSmiles s = none) ∧
    (smilesWellFormed s = true → ∃ m, MolFromSmiles s = some m) := by
  constructor <;> intro h <;> simp [MolFromSmiles, h]

/-- Witness for C4 at the malformed input `"C(C"` (unbalanced bracket) and
the well-formed input `"CCO"`. -/
theorem molFromSmiles_error_model_witness :
    MolFromSmiles "C(C" = none ∧ ∃ m, MolFromSmiles "CCO" = some m :=
  ⟨(molFromSmiles_error_model "C(C").1 (by decide),
   (molFromSmiles_error_model "CCO").2 (by decide)⟩

/-- C5: the key-based MACCS fingerprint has exactly 166 bits and the
hash-based circular fingerprint invoked with `nBits = 2048` has exactly
2048 bits, for every molecule. -/
theorem fingerprint_lengths (m : Molecule) :
    (GenMACCSKeys m).length = 166 ∧
    (GetMorganFingerprintAsBitVect m 2 2048).length = 2048 := by
  constructor <;> simp [GenMACCSKeys, GetMorganFingerprintAsBitVect]

/-- C7: both featurizers are deterministic — two runs on the same molecule
produce identical fingerprint bit vectors. -/
theorem featurizers_deterministic (m₁ m₂ : Molecule) (h : m₁ = m₂) :
    GenMACCSKeys m₁ = GenMACCSKeys m₂ ∧
    GetMorganFingerprintAsBitVect m₁ 2 2048 =
      GetMorganFingerprintAsBitVect m₂ 2 2048 := by
  subst h; exact ⟨rfl, rfl⟩

/-- Witness for C7 at a concrete molecule. -/
theorem featurizers_deterministic_witness :
    GenMACCSKeys
        { mw := 206, n_hba := 1, n_hbd := 1, logp := 3, tpsa := 37,
          maccsMatched := [3, 42], morganHashes := [7, 2055] } =
      GenMACCSKeys
        { mw := 206, n_hba := 1, n_hbd := 1, logp := 3, tpsa := 37,
          maccsMatched := [3, 42], morganHashes := [7, 2055] } ∧
    GetMorganFingerprintAsBitVect
        { mw := 206, n_hba := 1, n_hbd := 1, logp := 3, tpsa := 37,
          maccsMatched := [3, 42], morganHashes := [7, 2055] } 2 2048 =
      GetMorganFingerprintAsBitVect
        { mw := 206, n_hba := 1, n_hbd := 1, logp := 3, tpsa := 37,
          maccsMatched := [3, 42], morganHashes := [7, 2055] } 2 2048 :=
  featurizers_deterministic _ _ rfl

/-! ## Helper lemmas for the alignment loop -/

theorem alignLoop_of_mem_none :
    ∀ (l : List (Option ℚ)) (acc : List ℚ), none ∈ l → alignLoop l acc = none
  | [], _, h => by simp at h
  | none :: _, _, _ => rfl
  | some s :: rest, acc, h => by
    have hrest : none ∈ rest := by
      rcases List.mem_cons.mp h with h1 | h1
      · exact absurd h1 (by simp)
      · exact h1
    exact alignLoop_of_mem_none rest (acc ++ [s]) hrest

theorem alignLoop_of_not_mem_none :
    ∀ (l : List (Option ℚ)) (acc : List ℚ), none ∉ l →
      alignLoop l acc = some (acc ++ l.filterMap id)
  | [], acc, _ => by simp [alignLoop]
  | none :: _, _, h => by simp at h
  | some s :: rest, acc, h => by
    have hrest : none ∉ rest := fun hm => h (List.mem_cons_of_mem _ hm)
    have : alignLoop (some s :: rest) acc = alignLoop rest (acc ++ [s]) := rfl
    rw [this, alignLoop_of_not_mem_none rest (acc ++ [s]) hrest]
    simp

theorem npMin_le_self : ∀ (xs : List ℚ) (x : ℚ), npMin x xs ≤ x
  | [], _ => le_refl _
  | z :: zs, x => by
    have h := npMin_le_self zs (min x z)
    have hx : npMin x (z :: zs) = npMin (min x z) zs := rfl
    rw [hx]
    exact h.trans (min_le_left _ _)

theorem npMin_mem : ∀ (xs : List ℚ) (x : ℚ), npMin x xs ∈ x :: xs
  | [], x => by simp [npMin]
  | y :: ys, x => by
    have h := npMin_mem ys (min x y)
    have hx : npMin x (y :: ys) = npMin (min x y) ys := rfl
    rw [hx]
    rcases List.mem_cons.mp h with h1 | h1
    · rcases min_choice x y with h2 | h2 <;> rw [h1, h2] <;> simp
    · simp [h1]

theorem npMin_le :
    ∀ (xs : List ℚ) (x y : ℚ), y ∈ x :: xs → npMin x xs ≤ y
  | [], x, y, h => by
    have : y = x := by simpa using h
    simp [npMin, this]
  | z :: zs, x, y, h => by
    have hx : npMin x (z :: zs) = npMin (min x z) zs := rfl
    rw [hx]
    rcases List.mem_cons.mp h with h1 | h1
    · rw [h1]
      exact (npMin_le_self zs (min x z)).trans (min_le_left _ _)
    · rcases List.mem_cons.mp h1 with h2 | h2
      · rw [h2]
        exact (npMin_le_self zs (min x z)).trans (min_le_right _ _)
      · exact npMin_le zs (min x z) y (List.mem_cons_of_mem _ h2)

/-- C9: for a molecule with at least one conformer,
`embed_optimize_align_molecule` returns `None` exactly when `GetO3A` raised
`ValueError` for some conformer, and otherwise returns the minimum of the
per-conformer alignment scores. -/
theorem embed_align_characterization (outcomes : List (Option ℚ))
    (hne : outcomes ≠ []) :
    (embed_optimize_align_molecule outcomes = .result none ↔
      none ∈ outcomes) ∧
    (none ∉ outcomes →
      ∃ m, embed_optimize_align_molecule outcomes = .result (some m) ∧
        some m ∈ outcomes ∧ ∀ s : ℚ, some s ∈ outcomes → m ≤ s) := by
  have hmain : none ∉ outcomes →
      ∃ m, embed_optimize_align_molecule outcomes = .result (some m) ∧
        some m ∈ outcomes ∧ ∀ s : ℚ, some s ∈ outcomes → m ≤ s := by
    intro hno
    cases outcomes with
    | nil => exact absurd rfl hne
    | cons o rest =>
      cases o with
      | none => exact absurd (List.mem_cons_self _ _) hno
      | some s₀ =>
        have hfm : (some s₀ :: rest).filterMap id = s₀ :: rest.filterMap id := by
          simp
        have hloop : alignLoop (some s₀ :: rest) [] =
            some (s₀ :: rest.filterMap id) := by
          rw [alignLoop_of_not_mem_none (some s₀ :: rest) [] hno, hfm]
          simp
        refine ⟨npMin s₀ (rest.filterMap id), ?_, ?_, ?_⟩
        · rw [embed_optimize_align_molecule, hloop]
        · have hm := npMin_mem (rest.filterMap id) s₀
          rw [← hfm] at hm
          rcases List.mem_filterMap.mp hm with ⟨a, ha, hid⟩
          cases a with
          | none => simp at hid
          | some av =>
            have : av = npMin s₀ (rest.filterMap id) := by simpa using hid
            rw [← this]
            exact ha
        · intro s hs
          refine npMin_le (rest.filterMap id) s₀ s ?_
          rw [← hfm]
          exact List.mem_filterMap.mpr ⟨some s, hs, rfl⟩
  constructor
  · constructor
    · intro hres
      by_contra hno
      rcases hmain hno with ⟨m, hm, -, -⟩
      rw [hm] at hres
      simp at hres
    · intro hmem
      rw [embed_optimize_align_molecule, alignLoop_of_mem_none _ _ hmem]
  · exact hmain

/-- Witness for C9 at the concrete conformer outcomes
`[some 3, some 1, some 2]` (all alignments succeed). -/
theorem embed_align_characterization_witness :
    ∃ m, embed_optimize_align_molecule [some 3, some 1, some 2] =
        .result (some m) ∧
      some m ∈ ([some 3, some 1, some 2] : List (Option ℚ)) ∧
      ∀ s : ℚ, some s ∈ ([some 3, some 1, some 2] : List (Option ℚ)) → m ≤ s :=
  (embed_align_characterization [some 3, some 1, some 2] (by simp)).2
    (by simp)

/-- C3: in the batch shape-screening pass, a candidate whose `GetO3A` call
raises `ValueError` on some conformer contributes the sentinel `None`; the
batch is a record-by-record map that processes every record, so it is never
aborted by such a failure. -/
theorem shape_batch_isolated_failures (ds : List (List (Option ℚ)))
    (i : ℕ) (confs : List (Option ℚ))
    (h1 : ds[i]? = some confs) (h2 : none ∈ confs) :
    (shapeScreenBatch ds).length = ds.length ∧
    (shapeScreenBatch ds)[i]? = some (.result none) ∧
    ∀ (j : ℕ) (confs2 : List (Option ℚ)), ds[j]? = some confs2 →
      (shapeScreenBatch ds)[j]? =
        some (embed_optimize_align_molecule confs2) := by
  refine ⟨by simp [shapeScreenBatch], ?_, ?_⟩
  · rw [shapeScreenBatch, List.getElem?_map, h1]
    have hmap : Option.map embed_optimize_align_molecule (some confs) =
        some (embed_optimize_align_molecule confs) := rfl
    rw [hmap, embed_optimize_align_molecule, alignLoop_of_mem_none _ _ h2]
  · intro j confs2 hj
    rw [shapeScreenBatch, List.getElem?_map, hj]
    rfl

/-- Witness for C3 at a concrete batch of three candidates whose second
record fails alignment on its first conformer. -/
theorem shape_batch_isolated_failures_witness :
    (shapeScreenBatch [[some 1], [none, some 2], [some 3]]).length = 3 ∧
    (shapeScreenBatch [[some 1], [none, some 2], [some 3]])[1]? =
      some (AlignResult.result none) :=
  ⟨(shape_batch_isolated_failures [[some 1], [none, some 2], [some 3]] 1
      [none, some 2] rfl (by simp)).1,
   (shape_batch_isolated_failures [[some 1], [none, some 2], [some 3]] 1
      [none, some 2] rfl (by simp)).2.1⟩

/-- C8: each external-database lookup raises `ValueError` exactly when the
response lacks its expected result key, uses the first identifier of the
returned list on success, and, being a function of the single decoded
response, performs no retry. -/
theorem pubchem_lookup_error_model (name : String) (resp : Option (List ℕ))
    (cid : String) (resp2 : Option (List ℚ)) :
    ((∃ msg, cid_by_name_lookup name resp = .error (.valueError msg)) ↔
      resp = none) ∧
    (∀ (c : ℕ) (cs : List ℕ), resp = some (c :: cs) →
      cid_by_name_lookup name resp = .ok c) ∧
    ((∃ msg, mol_weight_lookup cid resp2 = .error (.valueError msg)) ↔
      resp2 = none) ∧
    (∀ (w : ℚ) (ws : List ℚ), resp2 = some (w :: ws) →
      mol_weight_lookup cid resp2 = .ok w) := by
  refine ⟨?_, ?_, ?_, ?_⟩
  · cases resp with
    | none => simp [cid_by_name_lookup]
    | some cids => cases cids <;> simp [cid_by_name_lookup]
  · intro c cs hr
    rw [hr]
    rfl
  · cases resp2 with
    | none => simp [mol_weight_lookup]
    | some props => cases props <;> simp [mol_weight_lookup]
  · intro w ws hr
    rw [hr]
    rfl

/-- Witness for C8: the ibuprofen CID lookup succeeds on a response
carrying the `IdentifierList` key and uses the first CID; a response
lacking the key raises `ValueError`. -/
theorem pubchem_lookup_error_model_witness :
    cid_by_name_lookup "ibuprofen" (some [3672]) = .ok 3672 ∧
    ∃ msg, cid_by_name_lookup "ibuprofen" none = .error (.valueError msg) :=
  ⟨(pubchem_lookup_error_model "ibuprofen" (some [3672]) "3672"
      (some [206])).2.1 3672 [] rfl,
   (pubchem_lookup_error_model "ibuprofen" none "3672" none).1.mpr rfl⟩

/-- C6: the ranker's output is exactly the first 10 records of the stably
sorted corpus — descending by score for the similarity-like (Tanimoto)
column, ascending for the distance-like (RMSD alignment) column — hence it
has `min 10 n` records, is sorted in the corresponding direction, and
consists of corpus records. -/
theorem ranker_top10_spec (ds : List ScoredRecord) :
    rankDescendingTop10 ds =
      (ds.mergeSort (fun a b => b.score ≤ a.score)).take 10 ∧
    rankAscendingTop10 ds =
      (ds.mergeSort (fun a b => a.score ≤ b.score)).take 10 ∧
    (rankDescendingTop10 ds).length = min 10 ds.length ∧
    (rankAscendingTop10 ds).length = min 10 ds.length ∧
    List.Pairwise (fun a b : ScoredRecord => b.score ≤ a.score)
      (rankDescendingTop10 ds) ∧
    List.Pairwise (fun a b : ScoredRecord => a.score ≤ b.score)
      (rankAscendingTop10 ds) ∧
    (∀ r ∈ rankDescendingTop10 ds, r ∈ ds) ∧
    (∀ r ∈ rankAscendingTop10 ds, r ∈ ds) := by
  have hdesc := @List.sorted_mergeSort ScoredRecord
    (fun a b : ScoredRecord => decide (b.score ≤ a.score))
    (fun a b c h1 h2 => by
      simp only [decide_eq_true_eq] at *
      exact le_trans h2 h1)
    (fun a b => by
      simp only [Bool.or_eq_true, decide_eq_true_eq]
      exact le_total b.score a.score) ds
  have hasc := @List.sorted_mergeSort ScoredRecord
    (fun a b : ScoredRecord => decide (a.score ≤ b.score))
    (fun a b c h1 h2 => by
      simp only [decide_eq_true_eq] at *
      exact le_trans h1 h2)
    (fun a b => by
      simp only [Bool.or_eq_true, decide_eq_true_eq]
      exact le_total a.score b.score) ds
  have hdesc' : List.Pairwise (fun a b : ScoredRecord => b.score ≤ a.score)
      (ds.mergeSort (fun a b => b.score ≤ a.score)) :=
    hdesc.imp (fun h => of_decide_eq_true h)
  have hasc' : List.Pairwise (fun a b : ScoredRecord => a.score ≤ b.score)
      (ds.mergeSort (fun a b => a.score ≤ b.score)) :=
    hasc.imp (fun h => of_decide_eq_true h)
  refine ⟨rfl, rfl, ?_, ?_, ?_, ?_, ?_, ?_⟩
  · simp [rankDescendingTop10]
  · simp [rankAscendingTop10]
  · exact List.Pairwise.sublist (List.take_sublist 10 _) hdesc'
  · exact List.Pairwise.sublist (List.take_sublist 10 _) hasc'
  · intro r hr
    exact (List.mergeSort_perm ds _).subset
      ((List.take_sublist 10 _).subset hr)
  · intro r hr
    exact (List.mergeSort_perm ds _).subset
      ((List.take_sublist 10 _).subset hr)

/-! ## Helper lemmas for the undersampling loop -/

theorem mem_classRows {df : List ToxRow} {c : ℕ} {r : ToxRow}
    (h : r ∈ classRows df c) : r ∈ df ∧ r.severityClass = c := by
  rcases List.mem_filter.mp h with ⟨hmem, hc⟩
  exact ⟨hmem, by simpa using hc⟩

/-- The per-class block appended by one iteration of the undersampling
loop. -/
def classBlock (df : List ToxRow) (most : ℕ)
    (sample40 : List ToxRow → List ToxRow) (c : ℕ) : List ToxRow :=
  if c = most then sample40 (classRows df c) else classRows df c

theorem balanced_df_eq_flatten (df : List ToxRow) (classes : List ℕ)
    (most : ℕ) (sample40 : List ToxRow → List ToxRow) :
    balanced_df df classes most sample40 =
      (classes.map (classBlock df most sample40)).flatten := rfl

theorem classBlock_filter_self (df : List ToxRow) (most : ℕ)
    (sample40 : List ToxRow → List ToxRow)
    (hsub : ∀ r ∈ sample40 (classRows df most), r ∈ classRows df most)
    (c : ℕ) :
    (classBlock df most sample40 c).filter
        (fun r => r.severityClass == c) = classBlock df most sample40 c := by
  refine List.filter_eq_self.mpr (fun r hr => ?_)
  rw [classBlock] at hr
  by_cases hcm : c = most
  · rw [if_pos hcm, hcm] at hr
    have := (mem_classRows (hsub r hr)).2
    simp [this, hcm]
  · rw [if_neg hcm] at hr
    have := (mem_classRows hr).2
    simp [this]

theorem classBlock_filter_other (df : List ToxRow) (most : ℕ)
    (sample40 : List ToxRow → List ToxRow)
    (hsub : ∀ r ∈ sample40 (classRows df most), r ∈ classRows df most)
    (c c' : ℕ) (hne : c' ≠ c) :
    (classBlock df most sample40 c').filter
        (fun r => r.severityClass == c) = [] := by
  refine List.filter_eq_nil_iff.mpr (fun r hr => ?_)
  rw [classBlock] at hr
  by_cases hcm : c' = most
  · rw [if_pos hcm, hcm] at hr
    have := (mem_classRows (hsub r hr)).2
    rw [← hcm] at this
    simp [this, hne]
  · rw [if_neg hcm] at hr
    have := (mem_classRows hr).2
    simp [this, hne]

theorem classBlock_subset (df : List ToxRow) (most : ℕ)
    (sample40 : List ToxRow → List ToxRow)
    (hsub : ∀ r ∈ sample40 (classRows df most), r ∈ classRows df most)
    (c : ℕ) :
    ∀ r ∈ classBlock df most sample40 c, r ∈ df := by
  intro r hr
  rw [classBlock] at hr
  by_cases hcm : c = most
  · rw [if_pos hcm, hcm] at hr
    exact (mem_classRows (hsub r hr)).1
  · rw [if_neg hcm] at hr
    exact (mem_classRows hr).1

theorem filter_balanced_eq (df : List ToxRow) (most : ℕ)
    (sample40 : List ToxRow → List ToxRow)
    (hsub : ∀ r ∈ sample40 (classRows df most), r ∈ classRows df most)
    (c : ℕ) :
    ∀ classes : List ℕ, classes.Nodup → c ∈ classes →
      (balanced_df df classes most sample40).filter
          (fun r => r.severityClass == c) = classBlock df most sample40 c := by
  intro classes
  induction classes with
  | nil => intro _ hc; simp at hc
  | cons c' rest ih =>
    intro hnd hc
    have hnd' : rest.Nodup := hnd.of_cons
    rw [balanced_df_eq_flatten, List.map_cons, List.flatten_cons,
      List.filter_append]
    by_cases hcc : c' = c
    · subst hcc
      have hrest : (rest.map (classBlock df most sample40)).flatten.filter
          (fun r => r.severityClass == c') = [] := by
        refine List.filter_eq_nil_iff.mpr (fun r hr => ?_)
        rcases List.mem_flatten.mp hr with ⟨bl, hbl, hrbl⟩
        rcases List.mem_map.mp hbl with ⟨c'', hc'', rfl⟩
        have hne : c'' ≠ c' := by
          intro he
          rw [he] at hc''
          exact (List.nodup_cons.mp hnd).1 hc''
        have := List.filter_eq_nil_iff.mp
          (classBlock_filter_other df most sample40 hsub c' c'' hne) r hrbl
        exact this
      rw [classBlock_filter_self df most sample40 hsub c',
        ← balanced_df_eq_flatten, balanced_df_eq_flatten, hrest,
        List.append_nil]
    · have hcrest : c ∈ rest := by
        rcases List.mem_cons.mp hc with h1 | h1
        · exact absurd h1.symm hcc
        · exact h1
      rw [classBlock_filter_other df most sample40 hsub c c' hcc,
        List.nil_append]
      exact ih hnd' hcrest

/-- C10: after the undersampling loop, every severity class other than the
most populated one retains exactly its rows (in order), the most populated
class contributes exactly the 40 sampled rows drawn from it, and every row
of the balanced dataframe is a row of the cleaned input dataframe.  The
hypotheses on `sample40` are what `pandas.sample(n=40)` guarantees when
the most populated class has at least 40 rows. -/
theorem undersampling_invariants (df : List ToxRow) (classes : List ℕ)
    (most : ℕ) (sample40 : List ToxRow → List ToxRow)
    (hnd : classes.Nodup) (hmost : most ∈ classes)
    (hsub : ∀ r ∈ sample40 (classRows df most), r ∈ classRows df most)
    (hlen : (sample40 (classRows df most)).length = 40) :
    (∀ c ∈ classes, c ≠ most →
      (balanced_df df classes most sample40).filter
          (fun r => r.severityClass == c) = classRows df c) ∧
    (balanced_df df classes most sample40).filter
        (fun r => r.severityClass == most) = sample40 (classRows df most) ∧
    ((balanced_df df classes most sample40).filter
        (fun r => r.severityClass == most)).length = 40 ∧
    ∀ r ∈ balanced_df df classes most sample40, r ∈ df := by
  have hfmost := filter_balanced_eq df most sample40 hsub most classes hnd hmost
  rw [classBlock, if_pos rfl] at hfmost
  refine ⟨?_, hfmost, by rw [hfmost]; exact hlen, ?_⟩
  · intro c hc hcm
    have := filter_balanced_eq df most sample40 hsub c classes hnd hc
    rw [classBlock, if_neg hcm] at this
    exact this
  · intro r hr
    rw [balanced_df_eq_flatten] at hr
    rcases List.mem_flatten.mp hr with ⟨bl, hbl, hrbl⟩
    rcases List.mem_map.mp hbl with ⟨c'', _, rfl⟩
    exact classBlock_subset df most sample40 hsub c'' r hrbl

/-- The concrete dataframe used by the undersampling witness: 41 rows of
severity class 0 and one row of severity class 1. -/
def toxSampleDf : List ToxRow :=
  (List.range 41).map (fun i => { idx := i, severityClass := 0 }) ++
    [{ idx := 100, severityClass := 1 }]

/-- Witness for C10 at `toxSampleDf`, classes `[0, 1]`, most populated
class `0`, with `sample40` taking the first 40 rows. -/
theorem undersampling_invariants_witness :
    (balanced_df toxSampleDf [0, 1] 0 (fun xs => xs.take 40)).filter
        (fun r => r.severityClass == 0) =
      (classRows toxSampleDf 0).take 40 ∧
    ((balanced_df toxSampleDf [0, 1] 0 (fun xs => xs.take 40)).filter
        (fun r => r.severityClass == 0)).length = 40 :=
  ⟨(undersampling_invariants toxSampleDf [0, 1] 0 (fun xs => xs.take 40)
      (by decide) (by decide) (by decide) (by decide)).2.1,
   (undersampling_invariants toxSampleDf [0, 1] 0 (fun xs => xs.take 40)
      (by decide) (by decide) (by decide) (by decide)).2.2.1⟩

end SBLD24
